import Mathlib

/-!
Verification of the occupancy-gap analysis bot (bot-smoobu-free-days-dealer).

Shallow embedding conventions:

* Calendar dates (Python `datetime.date`) are integers: the number of days since
  a fixed epoch that falls on a Monday, so `d.weekday()` (Monday = 0) is `d % 7`
  and `timedelta(days = k)` is `+ k`.  The `datetime` values produced by
  `datetime.combine(date, datetime.min.time())` carry a midnight time-of-day and
  are identified with their date.
* Monetary values (Python `float`) are modeled as exact rationals; Python
  `round(x, 2)` is decimal rounding half-to-even (banker's rounding).
* The booking tuples consumed by `UnoccupiedDaysFormatter` are
  `(arrival, departure, guest_email, guest_name, price)`; the two date strings
  are parsed with `datetime.strptime(x, "%Y-%m-%d").date()`, a bijection between
  valid date strings and dates, so the embedding carries the dates themselves.
* A Python `dict` keyed by dates is a function `Date → Option DayInfo`; item
  assignment is `Function.update` (last write wins), `in` is `Option.isSome`.
-/

namespace Smoobu

/-- Python `date.weekday()`: Monday = 0, ..., Sunday = 6.  A calendar date is an
integer: days since the epoch Monday. -/
def weekday (d : ℤ) : ℤ := d % 7

/-- `dto.util.DateRange` (both bounds inclusive, at midnight). -/
structure DateRange where
  start : ℤ
  «end» : ℤ
deriving Repr, DecidableEq

/-- `UnoccupiedDaysFormatter._get_next_next_week_range` (unoccupied_days_formatter.py:78-95):
`start = today + timedelta(days=(14 - today.weekday()))`, `end = start + 6 days`. -/
def getNextNextWeekRange (today : ℤ) : DateRange :=
  let start := today + (14 - weekday today)
  { start := start, «end» := start + 6 }

/-- A booking tuple `(arrival, departure, guest_email, guest_name, price)` as
consumed by `UnoccupiedDaysFormatter`, after date parsing. -/
structure Booking where
  arrival : ℤ
  departure : ℤ
  guest_email : String
  guest_name : String
  price : ℚ
deriving Repr, DecidableEq

/-- One value of the `occupied_days` dict (unoccupied_days_formatter.py:147-152). -/
structure DayInfo where
  type : String
  guest_name : String
  guest_email : String
  price : ℚ
deriving Repr, DecidableEq

/-- The `occupied_days` dict, as a partial map from dates. -/
abbrev OccupiedDays := ℤ → Option DayInfo

/-- Number of iterations of the inner loop of `_create_occupied_days_dict`:
Python `range((departure - arrival).days + 1)`. -/
def Booking.nDays (b : Booking) : ℕ := ((b.departure - b.arrival) + 1).toNat

/-- The dates `arrival + timedelta(days=i)` for `i in range((departure - arrival).days + 1)`. -/
def Booking.days (b : Booking) : List ℤ :=
  (List.range b.nDays).map (fun i : ℕ => b.arrival + (i : ℤ))

/-- The dict value written for date `current` of booking `b`
(unoccupied_days_formatter.py:147-152). -/
def Booking.entry (b : Booking) (current : ℤ) : DayInfo :=
  { type := if current = b.arrival then "arrival"
            else if current = b.departure then "departure" else "occupied"
    guest_name := b.guest_name
    guest_email := b.guest_email
    price := b.price / (((b.departure - b.arrival) + 1 : ℤ) : ℚ) }

/-- One iteration of the outer loop of `_create_occupied_days_dict`: write every
date of booking `b` into the dict. -/
def processBooking (m : OccupiedDays) (b : Booking) : OccupiedDays :=
  b.days.foldl (fun m current => Function.update m current (some (b.entry current))) m

/-- `UnoccupiedDaysFormatter._create_occupied_days_dict` (unoccupied_days_formatter.py:128-154). -/
def createOccupiedDaysDict (bookings : List Booking) : OccupiedDays :=
  bookings.foldl processBooking (fun _ => none)

/-- `UnoccupiedDaysFormatter._check_free_days` (unoccupied_days_formatter.py:156-172). -/
def checkFreeDays (occupied_days : OccupiedDays) (current_day : ℤ) (event_type : String) : ℕ :=
  let days_to_check :=
    if event_type = "arrival" then [current_day - 1, current_day - 2]
    else [current_day + 1, current_day + 2]
  days_to_check.countP (fun day => (occupied_days day).isNone)

/-- Python `round(x)` for a rational `x`: round half to even. -/
def roundHalfEven (q : ℚ) : ℤ :=
  if Int.fract q < 1/2 then ⌊q⌋
  else if 1/2 < Int.fract q then ⌊q⌋ + 1
  else if 2 ∣ ⌊q⌋ then ⌊q⌋ else ⌊q⌋ + 1

/-- Python `round(x, 2)`. -/
def pyRound2 (q : ℚ) : ℚ := ((roundHalfEven (q * 100) : ℤ) : ℚ) / 100

/-- `UnoccupiedDaysFormatter._calculate_offer_price` (unoccupied_days_formatter.py:174-189):
`round(original_price * 0.57, 2)`; `event_type` is ignored. -/
def calculateOfferPrice (original_price : ℚ) (event_type : String) : ℚ :=
  pyRound2 (original_price * (0.57 : ℚ))

/-- `dto.util.Event`. -/
structure Event where
  date : ℤ
  type : String
  guest_name : String
  guest_email : String
  free_days : ℕ
  price : ℚ
  offer_price : ℚ
deriving Repr, DecidableEq

/-- Insert an event into a list already sorted by date, after every element whose
date is `≤` its own. -/
def insertByDate (e : Event) : List Event → List Event
  | [] => [e]
  | x :: xs => if x.date ≤ e.date then x :: insertByDate e xs else e :: x :: xs

/-- Python `sorted(events, key=lambda e: e.date)`: a stable sort by date.  Any two
stable sorts by the same key agree, so a left-to-right insertion sort models it. -/
def sortByDate (l : List Event) : List Event := l.foldl (fun acc e => insertByDate e acc) []

/-- The dates enumerated by `_analyze_bookings`: `date_range.start + timedelta(days=i)`
for `i in range((date_range.end - date_range.start).days + 1)`. -/
def rangeDays (r : DateRange) : List ℤ :=
  (List.range ((r.«end» - r.start) + 1).toNat).map (fun i : ℕ => r.start + (i : ℤ))

/-- The body of the generator expression of `_analyze_bookings`
(unoccupied_days_formatter.py:112-123): the event built for `current_day`, or
`none` when the day is absent from the dict or is an interior `occupied` day. -/
def analyzeDay (occupied_days : OccupiedDays) (current_day : ℤ) : Option Event :=
  match occupied_days current_day with
  | some info =>
    if info.type = "arrival" ∨ info.type = "departure" then
      some { date := current_day
             type := info.type
             guest_name := info.guest_name
             guest_email := info.guest_email
             free_days := checkFreeDays occupied_days current_day info.type
             price := info.price
             offer_price := calculateOfferPrice info.price info.type }
    else none
  | none => none

/-- `UnoccupiedDaysFormatter._analyze_bookings` (unoccupied_days_formatter.py:97-126). -/
def analyzeBookings (bookings : List Booking) (date_range : DateRange) : List Event :=
  let occupied_days := createOccupiedDaysDict bookings
  sortByDate ((rangeDays date_range).filterMap (analyzeDay occupied_days))

/-- Two bookings have non-overlapping (disjoint) date ranges. -/
def DisjointRanges (b c : Booking) : Prop :=
  b.departure < c.arrival ∨ c.departure < b.arrival

instance : ∀ b c, Decidable (DisjointRanges b c) := fun b c => by
  unfold DisjointRanges; infer_instance

/-- The spec's invariant on one unit's booking list: date ranges are pairwise
non-overlapping. -/
def PairwiseDisjoint (bookings : List Booking) : Prop :=
  List.Pairwise DisjointRanges bookings

/-- A date is covered by booking `b` exactly when it lies in `[arrival, departure]`. -/
lemma mem_days_iff (b : Booking) (d : ℤ) :
    d ∈ b.days ↔ b.arrival ≤ d ∧ d ≤ b.departure := by
  unfold Booking.days
  rw [List.mem_map]
  constructor
  · rintro ⟨i, hi, rfl⟩
    have hir : (i : ℤ) < b.departure - b.arrival + 1 := Int.lt_toNat.mp (List.mem_range.mp hi)
    have hnn : (0 : ℤ) ≤ (i : ℤ) := Int.ofNat_nonneg i
    omega
  · rintro ⟨h1, h2⟩
    refine ⟨(d - b.arrival).toNat, List.mem_range.mpr ?_, ?_⟩
    · rw [Booking.nDays, Int.toNat_lt_toNat (by omega)]
      omega
    · rw [Int.toNat_of_nonneg (by omega)]
      ring

/-- Folding dict writes whose value depends only on the key: last write wins, and
every written key holds its value. -/
lemma foldl_update_apply (f : ℤ → DayInfo) (ks : List ℤ) (m : OccupiedDays) (d : ℤ) :
    (ks.foldl (fun m k => Function.update m k (some (f k))) m) d
      = if d ∈ ks then some (f d) else m d := by
  induction ks generalizing m with
  | nil => simp
  | cons k ks ih =>
    simp only [List.foldl_cons, ih, List.mem_cons]
    by_cases hks : d ∈ ks
    · simp [hks]
    · by_cases hk : d = k
      · subst hk
        simp [hks, Function.update_apply]
      · simp [hks, hk, Function.update_apply]

lemma processBooking_apply (m : OccupiedDays) (b : Booking) (d : ℤ) :
    processBooking m b d = if d ∈ b.days then some (b.entry d) else m d :=
  foldl_update_apply b.entry b.days m d

/-- Dates covered by no booking of the list are left untouched by the outer fold. -/
lemma foldl_processBooking_not_covered (bookings : List Booking) (m : OccupiedDays) (d : ℤ)
    (h : ∀ b ∈ bookings, ¬(b.arrival ≤ d ∧ d ≤ b.departure)) :
    (bookings.foldl processBooking m) d = m d := by
  induction bookings generalizing m with
  | nil => rfl
  | cons c rest ih =>
    rw [List.foldl_cons, ih _ (fun b hb => h b (List.mem_cons_of_mem c hb)),
      processBooking_apply]
    have : d ∉ c.days := fun hd => h c (List.mem_cons_self c rest) ((mem_days_iff c d).mp hd)
    simp [this]

lemma disjoint_not_covered {b c : Booking} (hdis : DisjointRanges b c) {d : ℤ}
    (hd : b.arrival ≤ d ∧ d ≤ b.departure) : ¬(c.arrival ≤ d ∧ d ≤ c.departure) := by
  obtain ⟨hd1, hd2⟩ := hd
  rintro ⟨hc1, hc2⟩
  rcases hdis with h | h <;> omega

/-- For pairwise non-overlapping bookings, every covered date holds the entry of
the booking covering it. -/
lemma foldl_processBooking_covered (bookings : List Booking) (m : OccupiedDays)
    (hpw : List.Pairwise DisjointRanges bookings) {b : Booking} (hb : b ∈ bookings)
    {d : ℤ} (hd1 : b.arrival ≤ d) (hd2 : d ≤ b.departure) :
    (bookings.foldl processBooking m) d = some (b.entry d) := by
  induction bookings generalizing m with
  | nil => exact absurd hb (List.not_mem_nil b)
  | cons c rest ih =>
    rw [List.foldl_cons]
    rcases List.mem_cons.mp hb with rfl | hbrest
    · rw [foldl_processBooking_not_covered rest _ d
        (fun r hr => disjoint_not_covered (List.rel_of_pairwise_cons hpw hr) ⟨hd1, hd2⟩),
        processBooking_apply]
      simp [(mem_days_iff b d).mpr ⟨hd1, hd2⟩]
    · exact ih _ (List.Pairwise.of_cons hpw) hbrest

lemma createOccupiedDaysDict_covered {bookings : List Booking}
    (hpw : PairwiseDisjoint bookings) {b : Booking} (hb : b ∈ bookings)
    {d : ℤ} (hd1 : b.arrival ≤ d) (hd2 : d ≤ b.departure) :
    createOccupiedDaysDict bookings d = some (b.entry d) :=
  foldl_processBooking_covered bookings _ hpw hb hd1 hd2

/-- C2, counterexample: for `today = 1` (a Tuesday), the window start computed by
`_get_next_next_week_range` falls on a Monday (weekday 0), not on today's weekday. -/
theorem getNextNextWeekRange_weekday_cex :
    weekday (getNextNextWeekRange 1).start ≠ weekday 1 := by decide

/-- C2, amended: for every date `today`, the window satisfies
`start = today + (14 - today.weekday())` and `end = start + 6` (a 7-day inclusive
window, both at midnight); the start always falls on weekday 0 (Monday) — the
Monday of the week after next — which equals today's weekday only when today is
itself a Monday. -/
theorem getNextNextWeekRange_spec (today : ℤ) :
    (getNextNextWeekRange today).start = today + (14 - weekday today) ∧
    (getNextNextWeekRange today).«end» = (getNextNextWeekRange today).start + 6 ∧
    weekday (getNextNextWeekRange today).start = 0 := by
  refine ⟨rfl, rfl, ?_⟩
  simp only [getNextNextWeekRange, weekday]
  omega

/-- C3: for every occupied-day map and every date, the free-days count of
`_check_free_days` is the number of the two calendar days immediately before the
date (role `arrival`) or immediately after it (any other role, in particular
`departure`) that are absent from the map; it never exceeds 2. -/
theorem checkFreeDays_spec (occupied_days : OccupiedDays) (d : ℤ) :
    (checkFreeDays occupied_days d "arrival"
      = (if occupied_days (d - 1) = none then 1 else 0)
        + (if occupied_days (d - 2) = none then 1 else 0)) ∧
    (checkFreeDays occupied_days d "departure"
      = (if occupied_days (d + 1) = none then 1 else 0)
        + (if occupied_days (d + 2) = none then 1 else 0)) ∧
    (∀ event_type, checkFreeDays occupied_days d event_type ≤ 2) := by
  refine ⟨?_, ?_, ?_⟩
  · simp [checkFreeDays, List.countP_cons, List.countP_nil, Option.isNone_iff_eq_none]
    rcases h1 : occupied_days (d - 1) <;> rcases h2 : occupied_days (d - 2) <;> simp
  · simp [checkFreeDays, List.countP_cons, List.countP_nil, Option.isNone_iff_eq_none]
    rcases h1 : occupied_days (d + 1) <;> rcases h2 : occupied_days (d + 2) <;> simp
  · intro event_type
    unfold checkFreeDays
    by_cases h : event_type = "arrival" <;>
      simp [h, List.countP_cons, List.countP_nil] <;> split <;> split <;> omega

instance : DecidablePred PairwiseDisjoint := fun l => by
  unfold PairwiseDisjoint; infer_instance

lemma mem_insertByDate (e a : Event) (l : List Event) :
    a ∈ insertByDate e l ↔ a = e ∨ a ∈ l := by
  induction l with
  | nil => simp [insertByDate]
  | cons x xs ih =>
    unfold insertByDate
    by_cases h : x.date ≤ e.date
    · simp only [if_pos h, List.mem_cons, ih]
      tauto
    · simp only [if_neg h, List.mem_cons]

lemma mem_foldl_insertByDate (l : List Event) (acc : List Event) (a : Event) :
    a ∈ l.foldl (fun acc e => insertByDate e acc) acc ↔ a ∈ acc ∨ a ∈ l := by
  induction l generalizing acc with
  | nil => simp
  | cons e l ih =>
    rw [List.foldl_cons, ih, mem_insertByDate, List.mem_cons]
    tauto

lemma mem_sortByDate (l : List Event) (a : Event) : a ∈ sortByDate l ↔ a ∈ l := by
  unfold sortByDate
  rw [mem_foldl_insertByDate]
  simp

lemma sorted_insertByDate (e : Event) (l : List Event)
    (h : List.Pairwise (fun a b : Event => a.date ≤ b.date) l) :
    List.Pairwise (fun a b : Event => a.date ≤ b.date) (insertByDate e l) := by
  induction l with
  | nil => simp [insertByDate]
  | cons x xs ih =>
    unfold insertByDate
    rcases List.pairwise_cons.mp h with ⟨hx, hxs⟩
    by_cases hle : x.date ≤ e.date
    · rw [if_pos hle]
      refine List.pairwise_cons.mpr ⟨?_, ih hxs⟩
      intro a ha
      rcases (mem_insertByDate e a xs).mp ha with rfl | ha
      · exact hle
      · exact hx a ha
    · rw [if_neg hle]
      refine List.pairwise_cons.mpr ⟨?_, h⟩
      intro a ha
      rcases List.mem_cons.mp ha with rfl | ha
      · exact le_of_not_le hle
      · exact le_trans (le_of_not_le hle) (hx a ha)

lemma sorted_sortByDate (l : List Event) :
    List.Pairwise (fun a b : Event => a.date ≤ b.date) (sortByDate l) := by
  unfold sortByDate
  have main : ∀ acc, List.Pairwise (fun a b : Event => a.date ≤ b.date) acc →
      List.Pairwise (fun a b : Event => a.date ≤ b.date)
        (l.foldl (fun acc e => insertByDate e acc) acc) := by
    induction l with
    | nil => intro acc hacc; exact hacc
    | cons e l ih => intro acc hacc; exact ih _ (sorted_insertByDate e acc hacc)
  exact main [] (List.Pairwise.nil)

lemma mem_rangeDays (r : DateRange) (d : ℤ) :
    d ∈ rangeDays r ↔ r.start ≤ d ∧ d ≤ r.«end» := by
  unfold rangeDays
  rw [List.mem_map]
  constructor
  · rintro ⟨i, hi, rfl⟩
    have hir : (i : ℤ) < r.«end» - r.start + 1 := Int.lt_toNat.mp (List.mem_range.mp hi)
    have hnn : (0 : ℤ) ≤ (i : ℤ) := Int.ofNat_nonneg i
    omega
  · rintro ⟨h1, h2⟩
    refine ⟨(d - r.start).toNat, List.mem_range.mpr ?_, ?_⟩
    · rw [Int.toNat_lt_toNat (by omega)]
      omega
    · rw [Int.toNat_of_nonneg (by omega)]
      ring

lemma analyzeDay_eq_some (occ : OccupiedDays) (d : ℤ) (e : Event) :
    analyzeDay occ d = some e ↔
    ∃ info, occ d = some info ∧ (info.type = "arrival" ∨ info.type = "departure") ∧
      e = { date := d, type := info.type, guest_name := info.guest_name,
            guest_email := info.guest_email,
            free_days := checkFreeDays occ d info.type, price := info.price,
            offer_price := calculateOfferPrice info.price info.type } := by
  unfold analyzeDay
  rcases hocc : occ d with _ | info
  · simp
  · by_cases htype : info.type = "arrival" ∨ info.type = "departure"
    · simp only [if_pos htype, Option.some_inj]
      constructor
      · intro he
        exact ⟨info, rfl, htype, he.symm⟩
      · rintro ⟨info', hinfo', _, rfl⟩
        cases hinfo'
        rfl
    · simp only [if_neg htype]
      constructor
      · intro he
        exact absurd he (by simp)
      · rintro ⟨info', hinfo', htype', rfl⟩
        cases hinfo'
        exact absurd htype' htype

/-- Structure of membership in the analyzer's output. -/
lemma mem_analyzeBookings_iff (bookings : List Booking) (r : DateRange) (e : Event) :
    e ∈ analyzeBookings bookings r ↔
    ∃ d, r.start ≤ d ∧ d ≤ r.«end» ∧
      ∃ info, createOccupiedDaysDict bookings d = some info ∧
        (info.type = "arrival" ∨ info.type = "departure") ∧
        e = { date := d, type := info.type, guest_name := info.guest_name,
              guest_email := info.guest_email,
              free_days := checkFreeDays (createOccupiedDaysDict bookings) d info.type,
              price := info.price,
              offer_price := calculateOfferPrice info.price info.type } := by
  unfold analyzeBookings
  rw [mem_sortByDate, List.mem_filterMap]
  constructor
  · rintro ⟨d, hd, hfd⟩
    rcases (mem_rangeDays r d).mp hd with ⟨h1, h2⟩
    rcases (analyzeDay_eq_some _ d e).mp hfd with ⟨info, hinfo, htype, he⟩
    exact ⟨d, h1, h2, info, hinfo, htype, he⟩
  · rintro ⟨d, h1, h2, info, hinfo, htype, he⟩
    exact ⟨d, (mem_rangeDays r d).mpr ⟨h1, h2⟩,
      (analyzeDay_eq_some _ d e).mpr ⟨info, hinfo, htype, he⟩⟩

/-- C1, counterexample: a zero-night booking (arrival = departure = day 0) in a
singleton list — pairwise non-overlapping, arrival ≤ departure — whose departure
date is tagged `arrival`, not `departure` as the claim requires. -/
theorem occupied_days_departure_tag_cex :
    PairwiseDisjoint [⟨0, 0, "guest@example.com", "Guest", 100⟩] ∧
    ((createOccupiedDaysDict [⟨0, 0, "guest@example.com", "Guest", 100⟩]) 0).map DayInfo.type
      = some "arrival" ∧
    ((createOccupiedDaysDict [⟨0, 0, "guest@example.com", "Guest", 100⟩]) 0).map DayInfo.type
      ≠ some "departure" := by
  refine ⟨by decide, by decide, by decide⟩

/-- C1, amended: for a unit booking list with pairwise non-overlapping date
ranges, every booking with arrival A ≤ departure D and total price P covers every
date of [A, D] in the occupied-day map with per-day price P / (D − A + 1); A is
tagged `arrival`, strictly interior dates are tagged `occupied`, and D is tagged
`departure` provided A < D (when A = D the single date is tagged `arrival`). -/
theorem occupied_days_cover (bookings : List Booking) (hpw : PairwiseDisjoint bookings)
    (b : Booking) (hb : b ∈ bookings) (hAD : b.arrival ≤ b.departure)
    (d : ℤ) (hd1 : b.arrival ≤ d) (hd2 : d ≤ b.departure) :
    ∃ info, createOccupiedDaysDict bookings d = some info ∧
      info.price = b.price / (((b.departure - b.arrival) + 1 : ℤ) : ℚ) ∧
      info.guest_name = b.guest_name ∧ info.guest_email = b.guest_email ∧
      (d = b.arrival → info.type = "arrival") ∧
      (b.arrival < d → d < b.departure → info.type = "occupied") ∧
      (d = b.departure → b.arrival < b.departure → info.type = "departure") := by
  refine ⟨b.entry d, createOccupiedDaysDict_covered hpw hb hd1 hd2, rfl, rfl, rfl, ?_, ?_, ?_⟩
  · rintro rfl
    simp [Booking.entry]
  · intro h1 h2
    simp only [Booking.entry]
    rw [if_neg (by omega : ¬ d = b.arrival), if_neg (by omega : ¬ d = b.departure)]
  · rintro rfl h
    simp only [Booking.entry]
    rw [if_neg (by omega : ¬ b.departure = b.arrival)]
    simp

/-- Witness for C1 on a concrete input: booking [0, 2] at price 300, interior
date 1 carries price 100 and tag `occupied`. -/
theorem occupied_days_cover_witness :
    ∃ info, createOccupiedDaysDict [⟨0, 2, "guest@example.com", "Guest", 300⟩] 1 = some info ∧
      info.price = (300 : ℚ) / ((((2 : ℤ) - 0) + 1 : ℤ) : ℚ) ∧
      info.guest_name = "Guest" ∧ info.guest_email = "guest@example.com" ∧
      ((1 : ℤ) = 0 → info.type = "arrival") ∧
      ((0 : ℤ) < 1 → (1 : ℤ) < 2 → info.type = "occupied") ∧
      ((1 : ℤ) = 2 → (0 : ℤ) < 2 → info.type = "departure") :=
  occupied_days_cover _ (by decide) _ (List.mem_singleton.mpr rfl) (by decide) 1
    (by decide) (by decide)

/-- C7: a zero-night booking's single covered date is tagged `arrival`, never
`departure`, and its per-day price divides the total price by 1; the divisor
(D − A + 1) is positive for every booking with arrival ≤ departure. -/
theorem zero_night_tagged_arrival (bookings : List Booking) (hpw : PairwiseDisjoint bookings)
    (b : Booking) (hb : b ∈ bookings) (h0 : b.arrival = b.departure) :
    (∃ info, createOccupiedDaysDict bookings b.arrival = some info ∧
      info.type = "arrival" ∧ info.type ≠ "departure" ∧
      info.price = b.price / ((1 : ℤ) : ℚ)) ∧
    (∀ c : Booking, c.arrival ≤ c.departure → (0 : ℤ) < (c.departure - c.arrival) + 1) := by
  constructor
  · refine ⟨b.entry b.arrival, createOccupiedDaysDict_covered hpw hb le_rfl (by omega), ?_, ?_, ?_⟩
    · simp [Booking.entry]
    · simp [Booking.entry]
    · have hz : b.departure - b.arrival = 0 := by omega
      simp [Booking.entry, hz]
  · intro c hc
    omega

/-- Witness for C7 on a concrete input: zero-night booking on day 5 at price 80. -/
theorem zero_night_tagged_arrival_witness :
    (∃ info, createOccupiedDaysDict [⟨5, 5, "guest@example.com", "Host", 80⟩] 5 = some info ∧
      info.type = "arrival" ∧ info.type ≠ "departure" ∧
      info.price = (80 : ℚ) / ((1 : ℤ) : ℚ)) ∧
    (∀ c : Booking, c.arrival ≤ c.departure → (0 : ℤ) < (c.departure - c.arrival) + 1) :=
  zero_night_tagged_arrival _ (by decide) _ (List.mem_singleton.mpr rfl) rfl

/-- Rounding an integer to two decimal places leaves it unchanged. -/
lemma pyRound2_intCast (n : ℤ) : pyRound2 ((n : ℤ) : ℚ) = ((n : ℤ) : ℚ) := by
  unfold pyRound2 roundHalfEven
  have h : ((n : ℤ) : ℚ) * 100 = (((n * 100 : ℤ) : ℤ) : ℚ) := by push_cast; ring
  rw [h, Int.fract_intCast, Int.floor_intCast, if_pos (by norm_num : (0 : ℚ) < 1/2)]
  push_cast
  field_simp

/-- C4: for every booking list and target window, the analyzer's output is
sorted ascending by date, and a date has an event in it exactly when it lies in
the window (inclusive) and is present in the occupied-day map with role
`arrival` or `departure`; interior `occupied` days never produce events, and the
output is empty when no such date exists. -/
theorem analyzeBookings_sorted_mem (bookings : List Booking) (r : DateRange) :
    List.Pairwise (fun a b : Event => a.date ≤ b.date) (analyzeBookings bookings r) ∧
    ∀ d : ℤ, (∃ e ∈ analyzeBookings bookings r, e.date = d) ↔
      (r.start ≤ d ∧ d ≤ r.«end» ∧
        ∃ info, createOccupiedDaysDict bookings d = some info ∧
          (info.type = "arrival" ∨ info.type = "departure")) := by
  constructor
  · unfold analyzeBookings
    exact sorted_sortByDate _
  · intro d
    constructor
    · rintro ⟨e, he, rfl⟩
      rcases (mem_analyzeBookings_iff _ _ _).mp he with ⟨d', h1, h2, info, hinfo, htype, rfl⟩
      exact ⟨h1, h2, info, hinfo, htype⟩
    · rintro ⟨h1, h2, info, hinfo, htype⟩
      exact ⟨_, (mem_analyzeBookings_iff _ _ _).mpr ⟨d, h1, h2, info, hinfo, htype, rfl⟩, rfl⟩

/-- C5: every event emitted by the analyzer carries
`offer_price = round(price * 0.57, 2)`, and `_calculate_offer_price` applies the
same factor 0.57 whatever the event type. -/
theorem offer_price_spec (bookings : List Booking) (r : DateRange) (e : Event)
    (he : e ∈ analyzeBookings bookings r) :
    e.offer_price = pyRound2 (e.price * (0.57 : ℚ)) ∧
    (∀ p t, calculateOfferPrice p t = pyRound2 (p * (0.57 : ℚ))) := by
  refine ⟨?_, fun p t => rfl⟩
  rcases (mem_analyzeBookings_iff _ _ _).mp he with ⟨d, h1, h2, info, hinfo, htype, rfl⟩
  rfl

/-- Witness for C5: booking [0, 2] at total price 300 has per-day price 100 and
offer price 57 on its arrival event. -/
theorem offer_price_spec_witness :
    ∃ e, e ∈ analyzeBookings [⟨0, 2, "guest@example.com", "Guest", 300⟩] ⟨0, 6⟩ ∧
      e.offer_price = pyRound2 (e.price * (0.57 : ℚ)) ∧
      e.price = 100 ∧ e.offer_price = 57 := by
  have hocc : createOccupiedDaysDict [⟨0, 2, "guest@example.com", "Guest", 300⟩] 0
      = some (Booking.entry ⟨0, 2, "guest@example.com", "Guest", 300⟩ 0) :=
    createOccupiedDaysDict_covered (by decide) (List.mem_singleton.mpr rfl) le_rfl (by decide)
  have htype : (Booking.entry ⟨0, 2, "guest@example.com", "Guest", 300⟩ 0).type = "arrival" := by
    simp [Booking.entry]
  have hprice : (Booking.entry ⟨0, 2, "guest@example.com", "Guest", 300⟩ 0).price = 100 := by
    simp [Booking.entry]
    norm_num
  have hmem := (mem_analyzeBookings_iff [⟨0, 2, "guest@example.com", "Guest", 300⟩] ⟨0, 6⟩
    _).mpr ⟨0, by decide, by decide, _, hocc, Or.inl htype, rfl⟩
  refine ⟨_, hmem, (offer_price_spec _ _ _ hmem).1, ?_, ?_⟩
  · exact hprice
  · show calculateOfferPrice
      (Booking.entry ⟨0, 2, "guest@example.com", "Guest", 300⟩ 0).price
      (Booking.entry ⟨0, 2, "guest@example.com", "Guest", 300⟩ 0).type = 57
    rw [hprice]
    unfold calculateOfferPrice
    have h57 : (100 : ℚ) * (0.57 : ℚ) = ((57 : ℤ) : ℚ) := by norm_num
    rw [h57, pyRound2_intCast]
    norm_num

/-- C6, counterexample: bookings A = [0, 1] and B = [2, 2] are adjacent (B starts
the day after A ends) and pairwise non-overlapping, both boundary events lie in
the window [0, 6], yet A's departure event at day 1 carries 1 free day (day 3 is
genuinely free and B, a zero-night stay, does not cover it), not 0. -/
theorem adjacent_bookings_cex :
    PairwiseDisjoint [⟨0, 1, "alice@example.com", "Alice", 100⟩,
      ⟨2, 2, "bob@example.com", "Bob", 50⟩] ∧
    (∃ e ∈ analyzeBookings [⟨0, 1, "alice@example.com", "Alice", 100⟩,
        ⟨2, 2, "bob@example.com", "Bob", 50⟩] ⟨0, 6⟩,
      e.date = 2 ∧ e.type = "arrival" ∧ e.free_days = 0) ∧
    (∃ e ∈ analyzeBookings [⟨0, 1, "alice@example.com", "Alice", 100⟩,
        ⟨2, 2, "bob@example.com", "Bob", 50⟩] ⟨0, 6⟩,
      e.date = 1 ∧ e.type = "departure" ∧ e.free_days = 1) := by
  refine ⟨by decide, by decide, by decide⟩

/-- C6, amended: for a pairwise non-overlapping unit booking list containing
adjacent bookings A and B — B's arrival the day after A's departure — each
spanning at least one night, when both boundary dates fall in the target window,
A's departure event and B's arrival event both carry a free-days count of 0. -/
theorem adjacent_bookings_free_days (bookings : List Booking) (r : DateRange)
    (hpw : PairwiseDisjoint bookings) (A B : Booking) (hA : A ∈ bookings) (hB : B ∈ bookings)
    (hAnight : A.arrival < A.departure) (hadj : B.arrival = A.departure + 1)
    (hBnight : B.arrival < B.departure)
    (hw1 : r.start ≤ A.departure) (hw2 : B.arrival ≤ r.«end») :
    (∃ e ∈ analyzeBookings bookings r,
      e.date = A.departure ∧ e.type = "departure" ∧ e.free_days = 0) ∧
    (∃ e ∈ analyzeBookings bookings r,
      e.date = B.arrival ∧ e.type = "arrival" ∧ e.free_days = 0) := by
  have hmapAdep : createOccupiedDaysDict bookings A.departure = some (A.entry A.departure) :=
    createOccupiedDaysDict_covered hpw hA (by omega) le_rfl
  have htypeA : (A.entry A.departure).type = "departure" := by
    simp only [Booking.entry]
    rw [if_neg (by omega : ¬ A.departure = A.arrival)]
    simp
  have hmapBarr : createOccupiedDaysDict bookings B.arrival = some (B.entry B.arrival) :=
    createOccupiedDaysDict_covered hpw hB le_rfl (by omega)
  have htypeB : (B.entry B.arrival).type = "arrival" := by
    simp [Booking.entry]
  have h1 : createOccupiedDaysDict bookings (A.departure + 1)
      = some (B.entry (A.departure + 1)) :=
    createOccupiedDaysDict_covered hpw hB (by omega) (by omega)
  have h2 : createOccupiedDaysDict bookings (A.departure + 2)
      = some (B.entry (A.departure + 2)) :=
    createOccupiedDaysDict_covered hpw hB (by omega) (by omega)
  have h3 : createOccupiedDaysDict bookings (B.arrival - 1)
      = some (A.entry (B.arrival - 1)) :=
    createOccupiedDaysDict_covered hpw hA (by omega) (by omega)
  have h4 : createOccupiedDaysDict bookings (B.arrival - 2)
      = some (A.entry (B.arrival - 2)) :=
    createOccupiedDaysDict_covered hpw hA (by omega) (by omega)
  have hfreeA : checkFreeDays (createOccupiedDaysDict bookings) A.departure "departure" = 0 := by
    unfold checkFreeDays
    rw [if_neg (by decide : ¬ ("departure" : String) = "arrival")]
    simp [h1, h2]
  have hfreeB : checkFreeDays (createOccupiedDaysDict bookings) B.arrival "arrival" = 0 := by
    unfold checkFreeDays
    rw [if_pos rfl]
    simp [h3, h4]
  constructor
  · refine ⟨_, (mem_analyzeBookings_iff _ _ _).mpr
      ⟨A.departure, hw1, by omega, _, hmapAdep, Or.inr htypeA, rfl⟩, rfl, htypeA, ?_⟩
    show checkFreeDays (createOccupiedDaysDict bookings) A.departure
      (A.entry A.departure).type = 0
    rw [htypeA]
    exact hfreeA
  · refine ⟨_, (mem_analyzeBookings_iff _ _ _).mpr
      ⟨B.arrival, by omega, hw2, _, hmapBarr, Or.inl htypeB, rfl⟩, rfl, htypeB, ?_⟩
    show checkFreeDays (createOccupiedDaysDict bookings) B.arrival
      (B.entry B.arrival).type = 0
    rw [htypeB]
    exact hfreeB

/-- Witness for C6's amended statement: A = [0, 1], B = [2, 3], window [0, 6]. -/
theorem adjacent_bookings_free_days_witness :
    (∃ e ∈ analyzeBookings [⟨0, 1, "alice@example.com", "Alice", 100⟩,
        ⟨2, 3, "bob@example.com", "Bob", 50⟩] ⟨0, 6⟩,
      e.date = (1 : ℤ) ∧ e.type = "departure" ∧ e.free_days = 0) ∧
    (∃ e ∈ analyzeBookings [⟨0, 1, "alice@example.com", "Alice", 100⟩,
        ⟨2, 3, "bob@example.com", "Bob", 50⟩] ⟨0, 6⟩,
      e.date = (2 : ℤ) ∧ e.type = "arrival" ∧ e.free_days = 0) :=
  adjacent_bookings_free_days _ ⟨0, 6⟩ (by decide) _ _
    (List.mem_cons_self _ _) (List.mem_cons_of_mem _ (List.mem_singleton.mpr rfl))
    (by decide) (by decide) (by decide) (by decide) (by decide)

/-- A Python value as it appears in the service-layer records: `None`, an int,
a string, or a float (modeled as an exact rational). -/
inductive PyVal where
  | none
  | int (n : ℤ)
  | str (s : String)
  | num (q : ℚ)
deriving Repr, DecidableEq

/-- `dto.reservation.BookingDTO`, restricted to the fields `get_bookings_by_apartment`
reads; `apartment_name` stands for `booking.apartment.name`.  Every field may be
`PyVal.none`. -/
structure BookingDTO where
  id : PyVal
  arrival : PyVal
  departure : PyVal
  email : PyVal
  guest_name : PyVal
  price : PyVal
  apartment_name : PyVal
deriving Repr, DecidableEq

/-- The 6-tuple `(booking.id, booking.arrival, booking.departure, booking.email,
booking.guest_name, booking.price)` built at smoobu_service.py:150-151 — used both
for the None-check and as the appended record.  A Python tuple is a list of values. -/
def bookingTuple (b : BookingDTO) : List PyVal :=
  [b.id, b.arrival, b.departure, b.email, b.guest_name, b.price]

/-- `SmoobuService.get_bookings_by_apartment` (smoobu_service.py:120-153): the list
stored under key `name` of the returned dict — the retained booking tuples of that
unit, in reservation order. -/
def getBookingsByApartment (reservations : List BookingDTO) (name : PyVal)
    : List (List PyVal) :=
  (reservations.filter (fun b => b.apartment_name == name)).filterMap (fun b =>
    if (bookingTuple b).all (fun v => v != PyVal.none) then some (bookingTuple b) else none)

/-- Python tuple unpacking into five names, as in the loop headers
`for arrival, departure, guest_email, guest_name, price in bookings:`
(unoccupied_days_formatter.py:142) and
`for i, (arrival, departure, guest_email, guest_name, price) in enumerate(sorted(bookings), 1):`
(booking_list_formatter.py:63): a tuple whose length is not 5 raises `ValueError`. -/
def unpack5 (t : List PyVal) : Except String (PyVal × PyVal × PyVal × PyVal × PyVal) :=
  match t with
  | [a, b, c, d, e] => Except.ok (a, b, c, d, e)
  | _ => Except.error "ValueError: values to unpack not exactly 5"

/-- Both formatters' loops destructure every tuple of a unit's booking list;
Python raises at the first tuple of the wrong length (sorting the tuples first,
as `BookingListFormatter.format` does, cannot avoid it when every tuple fails). -/
def destructureBookings : List (List PyVal)
    → Except String (List (PyVal × PyVal × PyVal × PyVal × PyVal))
  | [] => Except.ok []
  | t :: rest =>
    match unpack5 t with
    | Except.error e => Except.error e
    | Except.ok tup =>
      match destructureBookings rest with
      | Except.error e => Except.error e
      | Except.ok tups => Except.ok (tup :: tups)

/-- A reservation record whose six spec-required fields (unit name, arrival,
departure, guest email, guest name, price) are all present but whose `id` is None. -/
def noIdBooking : BookingDTO :=
  { id := PyVal.none
    arrival := PyVal.str "2024-01-01"
    departure := PyVal.str "2024-01-03"
    email := PyVal.str "guest@example.com"
    guest_name := PyVal.str "Guest"
    price := PyVal.num 100
    apartment_name := PyVal.str "Unit A" }

/-- A fully populated reservation record. -/
def validBooking : BookingDTO :=
  { id := PyVal.int 7
    arrival := PyVal.str "2024-01-01"
    departure := PyVal.str "2024-01-03"
    email := PyVal.str "guest@example.com"
    guest_name := PyVal.str "Guest"
    price := PyVal.num 100
    apartment_name := PyVal.str "Unit A" }

/-- C8, counterexample: a booking whose six spec-named fields (unit name, arrival,
departure, guest email, guest name, price) are all present is nevertheless
filtered out of its unit's list, because the code's None-check tests `booking.id`
(not the unit name). -/
theorem bookings_by_apartment_cex :
    noIdBooking.apartment_name ≠ PyVal.none ∧ noIdBooking.arrival ≠ PyVal.none ∧
    noIdBooking.departure ≠ PyVal.none ∧ noIdBooking.email ≠ PyVal.none ∧
    noIdBooking.guest_name ≠ PyVal.none ∧ noIdBooking.price ≠ PyVal.none ∧
    getBookingsByApartment [noIdBooking] (PyVal.str "Unit A") = [] := by
  refine ⟨by decide, by decide, by decide, by decide, by decide, by decide, by decide⟩

/-- C8, amended: a booking record of a unit is included in that unit's list
exactly when the six values the code checks — booking id, arrival, departure,
guest email, guest name, price — are all non-None; unit-name presence is not
part of the check. -/
theorem bookings_by_apartment_mem (reservations : List BookingDTO) (name : PyVal)
    (b : BookingDTO) (hb : b ∈ reservations) (hname : b.apartment_name = name) :
    bookingTuple b ∈ getBookingsByApartment reservations name ↔
      (b.id ≠ PyVal.none ∧ b.arrival ≠ PyVal.none ∧ b.departure ≠ PyVal.none ∧
       b.email ≠ PyVal.none ∧ b.guest_name ≠ PyVal.none ∧ b.price ≠ PyVal.none) := by
  unfold getBookingsByApartment
  rw [List.mem_filterMap]
  constructor
  · rintro ⟨b', hb', hsome⟩
    by_cases hall : (bookingTuple b').all (fun v => v != PyVal.none)
    · rw [if_pos hall] at hsome
      rw [Option.some_inj.mp hsome] at hall
      simpa [bookingTuple, List.all_cons, bne_iff_ne, and_assoc] using hall
    · rw [if_neg hall] at hsome
      exact absurd hsome (by simp)
  · intro h
    have hall : (bookingTuple b).all (fun v => v != PyVal.none) = true := by
      simp only [bookingTuple, List.all_cons, List.all_nil, Bool.and_eq_true, bne_iff_ne]
      tauto
    refine ⟨b, List.mem_filter.mpr ⟨hb, by simp [hname]⟩, ?_⟩
    rw [if_pos hall]

/-- Witness for C8's amended statement: a fully populated booking is included in
its unit's list. -/
theorem bookings_by_apartment_mem_witness :
    bookingTuple validBooking ∈ getBookingsByApartment [validBooking] (PyVal.str "Unit A") ↔
      (validBooking.id ≠ PyVal.none ∧ validBooking.arrival ≠ PyVal.none ∧
       validBooking.departure ≠ PyVal.none ∧ validBooking.email ≠ PyVal.none ∧
       validBooking.guest_name ≠ PyVal.none ∧ validBooking.price ≠ PyVal.none) :=
  bookings_by_apartment_mem [validBooking] (PyVal.str "Unit A") validBooking
    (List.mem_singleton.mpr rfl) rfl

/-- C9: every tuple the service stores has six components, its first being the
booking id, while both formatters unpack each tuple into exactly five names; a
unit with at least one retained booking therefore makes the formatters' loops
raise at the destructuring step instead of completing. -/
theorem service_tuples_break_formatters (reservations : List BookingDTO) (name : PyVal) :
    (∀ t ∈ getBookingsByApartment reservations name,
      t.length = 6 ∧ (∃ b ∈ reservations, t = bookingTuple b ∧ t.head? = some b.id) ∧
      ∃ msg, unpack5 t = Except.error msg) ∧
    (getBookingsByApartment reservations name ≠ [] →
      ∃ msg, destructureBookings (getBookingsByApartment reservations name)
        = Except.error msg) := by
  have hmain : ∀ t ∈ getBookingsByApartment reservations name,
      t.length = 6 ∧ (∃ b ∈ reservations, t = bookingTuple b ∧ t.head? = some b.id) ∧
      ∃ msg, unpack5 t = Except.error msg := by
    intro t ht
    unfold getBookingsByApartment at ht
    rw [List.mem_filterMap] at ht
    obtain ⟨b, hb, hsome⟩ := ht
    have hbr : b ∈ reservations := (List.mem_filter.mp hb).1
    by_cases hall : (bookingTuple b).all (fun v => v != PyVal.none)
    · rw [if_pos hall] at hsome
      rw [← Option.some_inj.mp hsome]
      exact ⟨rfl, ⟨b, hbr, rfl, rfl⟩, ⟨_, rfl⟩⟩
    · rw [if_neg hall] at hsome
      exact absurd hsome (by simp)
  refine ⟨hmain, ?_⟩
  intro hne
  obtain ⟨t, rest, hcons⟩ := List.exists_cons_of_ne_nil hne
  obtain ⟨-, -, msg, herr⟩ := hmain t (by rw [hcons]; exact List.mem_cons_self t rest)
  refine ⟨msg, ?_⟩
  rw [hcons]
  simp [destructureBookings, herr]

/-- Witness for C9: the unit list holding one fully populated booking makes the
formatters' destructuring step fail. -/
theorem service_tuples_break_formatters_witness :
    ∃ msg, destructureBookings
        (getBookingsByApartment [validBooking] (PyVal.str "Unit A"))
      = Except.error msg :=
  (service_tuples_break_formatters [validBooking] (PyVal.str "Unit A")).2 (by decide)

/-- `services.email_sender.EmailConfig`. -/
structure EmailConfig where
  smtp_server : String
  smtp_port : ℤ
  smtp_username : String
  smtp_password : String
  sender_email : String

/-- An observable effect of `EmailSender.send_email`: a console print, or an
actual SMTP message send (the commented-out `server.send_message(message)`). -/
inductive Effect where
  | print (s : String)
  | sendMessage
deriving Repr, DecidableEq

/-- The environment of one `send_email` call: which of the three SMTP operations
inside the `try` block — `SMTP(server, port)`, `starttls()`, `login(...)` —
raises, and with what message (`Option.none`: the call succeeds). -/
structure SmtpBehavior where
  connect_raises : Option String
  starttls_raises : Option String
  login_raises : Option String

/-- The `try` block of `EmailSender.send_email` (email_sender.py:83-90): runs the
three SMTP calls in order; the first failure propagates as an exception, and on
success only the simulated-send line and the success line are printed. -/
def smtpAttempt (behavior : SmtpBehavior) («to» : String) : Except String (List Effect) :=
  match behavior.connect_raises with
  | some e => Except.error e
  | Option.none =>
    match behavior.starttls_raises with
    | some e => Except.error e
    | Option.none =>
      match behavior.login_raises with
      | some e => Except.error e
      | Option.none =>
        Except.ok [Effect.print "simulated sending",
          Effect.print ("Email successfully sent to " ++ «to»)]

/-- `EmailSender.send_email` (email_sender.py:56-93): message construction is
pure; the `except Exception` clause catches any failure of the try block and
prints it; the method returns Python `None` (modeled `PyVal.none`) either way. -/
def send_email (config : EmailConfig) («to» subject body : String) (is_html : Bool)
    (behavior : SmtpBehavior) : List Effect × PyVal :=
  match smtpAttempt behavior «to» with
  | Except.ok effects => (effects, PyVal.none)
  | Except.error e => ([Effect.print ("Error sending email: " ++ e)], PyVal.none)

lemma smtpAttempt_ok (behavior : SmtpBehavior) («to» : String) (effects : List Effect)
    (h : smtpAttempt behavior «to» = Except.ok effects) :
    effects = [Effect.print "simulated sending",
      Effect.print ("Email successfully sent to " ++ «to»)] := by
  unfold smtpAttempt at h
  rcases behavior with ⟨c, st, lg⟩
  rcases c with _ | e1
  · rcases st with _ | e2
    · rcases lg with _ | e3
      · cases h
        rfl
      · cases h
    · cases h
  · cases h

/-- C10: `EmailSender.send_email` never propagates an exception — every SMTP
connect/starttls/login failure is caught and only printed — it always returns
`None`, and the actual message send is disabled: no `sendMessage` effect ever
occurs, the success path printing only the simulated-send and success lines. -/
theorem send_email_never_raises (config : EmailConfig) («to» subject body : String)
    (is_html : Bool) (behavior : SmtpBehavior) :
    (send_email config «to» subject body is_html behavior).2 = PyVal.none ∧
    Effect.sendMessage ∉ (send_email config «to» subject body is_html behavior).1 ∧
    (∀ msg, smtpAttempt behavior «to» = Except.error msg →
      send_email config «to» subject body is_html behavior
        = ([Effect.print ("Error sending email: " ++ msg)], PyVal.none)) ∧
    (∀ effects, smtpAttempt behavior «to» = Except.ok effects →
      effects = [Effect.print "simulated sending",
        Effect.print ("Email successfully sent to " ++ «to»)]) := by
  refine ⟨?_, ?_, ?_, fun effects h => smtpAttempt_ok behavior «to» effects h⟩
  · unfold send_email
    cases smtpAttempt behavior «to» <;> rfl
  · unfold send_email
    cases hatt : smtpAttempt behavior «to» with
    | error e => simp
    | ok effects =>
      rw [smtpAttempt_ok behavior «to» effects hatt]
      simp
  · intro msg hmsg
    unfold send_email
    rw [hmsg]

/-- Witness for C10 at a concrete failing behavior: a connection failure is
caught and only printed, with `None` returned. -/
theorem send_email_never_raises_witness :
    send_email ⟨"smtp.example.com", 587, "user", "pw", "from@example.com"⟩
      "to@example.com" "Subject" "Body" true
      ⟨some "boom", Option.none, Option.none⟩
      = ([Effect.print ("Error sending email: " ++ "boom")], PyVal.none) :=
  (send_email_never_raises ⟨"smtp.example.com", 587, "user", "pw", "from@example.com"⟩
    "to@example.com" "Subject" "Body" true
    ⟨some "boom", Option.none, Option.none⟩).2.2.1 "boom" rfl

end Smoobu
